import Mathlib

/-!
Verification development for the seafoodtruck-slack bot.

The embedding covers the command parser (`parseTokensFromMsg`, both the
find-trucks revision of `app.go` and the find-events revision), the day
token resolution and client wrappers of the seattlefoodtruck package,
and the response assembler (`postEvents` of the events revision and
`findTrucks` of `app.go`).

Modelling conventions: Go strings are modelled as `List Char` (byte =
char for the ASCII inputs the claims exercise); fallible Go calls
return `Except`; the runtime fault of an out-of-range Go string slice
is made explicit through `GoOutcome.fault`; Go `float64` ratings are
modelled as exact rationals (the additions of 0.5 performed by the code
are exact in binary floating point on the rating range, so the rational
model agrees with the float one there); calendar dates are abstract day
ordinals, since both branches of the Go switch format the chosen
`time.Time` with the same "2006-01-02" layout.
-/

namespace SeafoodTruck

/-- Outcome of a Go function call that can also hit a runtime
slice-bounds fault. -/
inductive GoOutcome (α : Type) where
  | ok (val : α)
  | goError (msg : String)
  | fault
deriving DecidableEq

/-- Character class trimmed by Go strings.TrimSpace (the ASCII and
Latin-1 portion of unicode.IsSpace; the rarer Unicode space code points
are not produced by any input considered here). -/
def isGoSpace (c : Char) : Bool :=
  c = ' ' || c = '\t' || c = '\n' || c = '\x0b' || c = '\x0c' || c = '\r' ||
    c = '\u0085' || c = '\u00A0'

/-- strings.TrimSpace. -/
def trimSpace (s : List Char) : List Char :=
  ((s.dropWhile isGoSpace).reverse.dropWhile isGoSpace).reverse

/-- strings.ToLower (ASCII case mapping, which is all the inputs use). -/
def toLowerL (s : List Char) : List Char := s.map Char.toLower

/-- strings.HasPrefix. -/
def hasPrefixL : List Char → List Char → Bool
  | [], _ => true
  | _ :: _, [] => false
  | p :: ps, c :: cs => p = c && hasPrefixL ps cs

/-- Index of the first occurrence of `sub` in the string, if any. -/
def indexAux (sub : List Char) : List Char → Option Nat
  | [] => if hasPrefixL sub [] then some 0 else none
  | c :: rest =>
    if hasPrefixL sub (c :: rest) then some 0
    else (indexAux sub rest).map (· + 1)

/-- strings.Index: byte index of the first occurrence of `sub`, or -1. -/
def goIndex (s sub : List Char) : Int :=
  match indexAux sub s with
  | some n => (n : Int)
  | none => -1

/-- strings.Contains. -/
def goContains (s sub : List Char) : Bool := goIndex s sub != -1

/-- Go string slicing s[lo:hi]: defined when lo ≤ hi ≤ len(s), a runtime
fault otherwise. -/
def goSlice (s : List Char) (lo hi : Nat) : Option (List Char) :=
  if lo ≤ hi ∧ hi ≤ s.length then some ((s.drop lo).take (hi - lo)) else none

/-- strings.Split with a one-character separator; Split("", sep) yields
one empty field, and n separators yield n+1 fields. -/
def splitChar (sep : Char) : List Char → List (List Char)
  | [] => [[]]
  | c :: rest =>
    let r := splitChar sep rest
    if c = sep then [] :: r
    else
      match r with
      | [] => [[c]]
      | h :: t => (c :: h) :: t

/-- strings.Split lifted to whole Go strings. -/
def goSplit (s : String) (sep : Char) : List String :=
  (splitChar sep s.toList).map fun cs => String.mk cs

/-- parseTokensFromMsg of src/app.go (find-trucks revision): error on
empty input; find the first " at"; when its index is positive the text
before it, lowercased and trimmed, is the command (otherwise the command
variable keeps its zero value ""); the slice msg[i+3:len(msg)] is
trimmed and, when it splits into exactly two space-separated tokens,
supplies the location and day arguments. -/
def parseTokensFromMsg (msg : List Char) :
    GoOutcome (List Char × List Char × List Char) :=
  if msg.length = 0 then .goError ("Message is empty, nothing to do")
  else
    let i := goIndex msg (" at".toList)
    let cmd := if 0 < i then trimSpace (toLowerL (msg.take i.toNat)) else []
    match goSlice msg (i + 3).toNat msg.length with
    | none => .fault
    | some loc0 =>
      let loc := trimSpace loc0
      match splitChar ' ' loc with
      | [a, b] => .ok (cmd, a, b)
      | _ => .ok (cmd, loc, [])

/-- parseTokensFromMsg of src/unnamed/part_002 (find-events revision):
same shape with connective " for" and a single day argument taken from
the slice msg[i+4:len(msg)]. -/
def parseTokensFromMsgEvents (msg : List Char) :
    GoOutcome (List Char × List Char) :=
  if msg.length = 0 then .goError ("Message is empty, nothing to do")
  else
    let i := goIndex msg (" for".toList)
    let cmd := if 0 < i then trimSpace (toLowerL (msg.take i.toNat)) else []
    match goSlice msg (i + 4).toNat msg.length with
    | none => .fault
    | some rest => .ok (cmd, trimSpace rest)

/-- The filled star glyph of src/unnamed/part_002. -/
def blackStar : Char := '★'

/-- The empty star glyph of src/unnamed/part_002. -/
def whiteStar : Char := '☆'

/-- Go int(float64) conversion: truncation toward zero. -/
def goTrunc (q : ℚ) : Int := if q < 0 then ⌈q⌉ else ⌊q⌋

/-- math.Copysign(0.5, num): one half carrying the sign of num (the
sign of +0.0, the zero value a JSON rating decodes to, is positive). -/
def copysignHalf (num : ℚ) : ℚ := if num < 0 then -(1/2 : ℚ) else (1/2 : ℚ)

/-- round of src/unnamed/part_002: int(num + math.Copysign(0.5, num)). -/
def round (num : ℚ) : Int := goTrunc (num + copysignHalf num)

/-- The glyph loop of getRating for an already rounded rating r:
positions i = 1..5 are filled while i ≤ r. -/
def glyphsOf (r : Int) : List Char :=
  (List.range 5).map fun k => if ((k : Int) + 1 ≤ r) then blackStar else whiteStar

/-- getRating of src/unnamed/part_002. -/
def getRating (rating : ℚ) : List Char := glyphsOf (round rating)

/-- Specification-side definition, written from the words of the spec:
rounding half away from zero; to be compared with the source `round`. -/
def halfAwayFromZero (q : ℚ) : Int :=
  if q < 0 then ⌈q - 1/2⌉ else ⌊q + 1/2⌋

/-- The day-token switch shared by GetEvents
(src/pkg/seattlefoodtruck/api.go) and FindTrucks (src/pkg/api.go): the
literal "tomorrow" selects the next day, every other token falls to the
default branch selecting the current day. -/
def resolveOnDay (now : Nat) (onTok : String) : Nat :=
  if onTok = "tomorrow" then now + 1 else now

/-- Transport-level outcome of one HTTP exchange: the request itself
may fail (client.Do), or decoding the response body may fail
(Payload.ReadResponse), or a decoded value is produced. -/
inductive WireOutcome (α : Type) where
  | ok (val : α)
  | httpError (msg : String)
  | decodeError (msg : String)
deriving DecidableEq

namespace SFT

/-- The truck summary nested in a booking
(src/pkg/seattlefoodtruck/api.go). -/
structure BookingTruck where
  name : String
  trailer : Bool
  foodCategories : List String
  id : String
  uid : Int
  featuredPhoto : String
deriving DecidableEq

structure Booking where
  id : Int
  status : String
  paid : Bool
  truck : BookingTruck
deriving DecidableEq

structure WaitlistEntry where
  id : Int
  position : Int
  truckSlug : String
deriving DecidableEq

structure Event where
  id : Int
  name : String
  description : String
  startTime : String
  endTime : String
  createdAt : String
  updatedAt : String
  eventId : Int
  bookings : List Booking
  waitlistEntries : List WaitlistEntry
deriving DecidableEq

structure Pagination where
  page : Int
  totalPages : Int
  totalCount : Int
deriving DecidableEq

structure EventsResponse where
  pagination : Pagination
  events : List Event
deriving DecidableEq

structure NeighborhoodRef where
  name : String
  id : Int
deriving DecidableEq

/-- Location of src/pkg/seattlefoodtruck/api.go; JSON fields the bot
never reads (photo, pod, google place id, ...) are elided. -/
structure Location where
  name : String
  longitude : ℚ
  latitude : ℚ
  address : String
  slug : String
  id : String
  uid : Int
  neighborhood : NeighborhoodRef
deriving DecidableEq

/-- Truck of src/pkg/seattlefoodtruck/api.go; only the fields the
assembler reads (name, rating, rating count, id, photo) are kept. -/
structure Truck where
  name : String
  rating : ℚ
  ratingCount : Int
  id : String
  featuredPhoto : String
deriving DecidableEq

/-- Go zero value of EventsResponse (what the out-parameter holds when
no decode happened). -/
def zeroEventsResponse : EventsResponse := { pagination := ⟨0, 0, 0⟩, events := [] }

/-- Go zero value of Location. -/
def zeroLocation : Location :=
  { name := "", longitude := 0, latitude := 0, address := "", slug := "",
    id := "", uid := 0, neighborhood := ⟨"", 0⟩ }

/-- Go zero value of Truck. -/
def zeroTruck : Truck :=
  { name := "", rating := 0, ratingCount := 0, id := "", featuredPhoto := "" }

/-- callAPI of src/pkg/seattlefoodtruck/api.go: on a failed client.Do
the error is returned and the out-parameter keeps its zero value; on
success ReadResponse decodes into it but the decode error is ignored,
so a decode failure also leaves the zero value, with a nil error. -/
def callAPI {α : Type} (wire : WireOutcome α) (zero : α) :
    Except String Unit × α :=
  match wire with
  | .httpError e => (.error e, zero)
  | .decodeError _ => (.ok (), zero)
  | .ok v => (.ok (), v)

/-- GetEvents of src/pkg/seattlefoodtruck/api.go: guards the empty
location id, resolves the on_day query parameter through the day-token
switch, performs the exchange — and discards the value callAPI
returns, so any transport failure degenerates to an empty event list
with a nil error. -/
def GetEvents (id onTok : String) (now : Nat)
    (wire : Nat → WireOutcome EventsResponse) : Except String (List Event) :=
  if id.length = 0 then .error ("Location ID is missing")
  else
    let onDay := resolveOnDay now onTok
    let r := callAPI (wire onDay) zeroEventsResponse
    .ok r.2.events

/-- GetLocation of src/pkg/seattlefoodtruck/api.go: same pattern, the
callAPI error is discarded. -/
def GetLocation (id : String) (wire : WireOutcome Location) :
    Except String Location :=
  if id.length = 0 then .error ("Location ID is missing")
  else .ok (callAPI wire zeroLocation).2

/-- GetTruck of src/pkg/seattlefoodtruck/api.go. -/
def GetTruck (id : String) (wire : WireOutcome Truck) :
    Except String Truck :=
  if id.length = 0 then .error ("Truck ID is required")
  else .ok (callAPI wire zeroTruck).2

end SFT

namespace SFTv1

/-- GetEvents of src/unnamed/part_003 (the revision that inlines the
exchange): a failed client.Do propagates its error, but the
ReadResponse error is still ignored, so a decode failure yields an
empty list with a nil error. -/
def GetEvents (id onTok : String) (now : Nat)
    (wire : Nat → WireOutcome SFT.EventsResponse) :
    Except String (List SFT.Event) :=
  if id.length = 0 then .error ("Location ID is missing")
  else
    match wire (resolveOnDay now onTok) with
    | .httpError e => .error e
    | .decodeError _ => .ok SFT.zeroEventsResponse.events
    | .ok evr => .ok evr.events

/-- GetLocation of src/unnamed/part_003. -/
def GetLocation (id : String) (wire : WireOutcome SFT.Location) :
    Except String SFT.Location :=
  if id.length = 0 then .error ("Location ID is missing")
  else
    match wire with
    | .httpError e => .error e
    | .decodeError _ => .ok SFT.zeroLocation
    | .ok l => .ok l

end SFTv1

/-- The FoodTruckClient interface consumed by the events revision. -/
structure FoodTruckClient where
  GetLocation : String → Except String SFT.Location
  GetEvents : String → String → Except String (List SFT.Event)
  GetTruck : String → Except String SFT.Truck

/-- A Domain Client call, recorded for call-trace accounting. -/
inductive ApiCall where
  | getLocation (id : String)
  | getEvents (id day : String)
  | getTruck (id : String)
deriving DecidableEq

/-- One Slack block of the assembled message, tagged with the data the
corresponding source section is built from (the mrkdwn text itself,
produced with Go time formatting, is abstracted to that data). -/
inductive Block where
  | locationHeader (locId locName : String)
  | eventHeader (trucks : Nat) (e : SFT.Event)
  | bookingDetail (b : SFT.Booking) (ratingGlyphs : Option (List Char))
  | divider
deriving DecidableEq

/-- One api.PostMessage call made by the bot. -/
inductive Post where
  | textMsg (text : String)
  | blockMsg (blocks : List Block)
  | helpMsg
deriving DecidableEq

/-- Booking loop body of postEvents: the detail section is emitted
whether or not GetTruck succeeds; on success it also carries the star
rating rendering. -/
def bookingBlock (client : FoodTruckClient) (b : SFT.Booking) :
    Block × List ApiCall :=
  match client.GetTruck b.truck.id with
  | .ok t => (.bookingDetail b (some (getRating t.rating)), [.getTruck b.truck.id])
  | .error _ => (.bookingDetail b none, [.getTruck b.truck.id])

/-- The inner booking loop of postEvents, in list order. -/
def bookingsBlocks (client : FoodTruckClient) :
    List SFT.Booking → List Block × List ApiCall
  | [] => ([], [])
  | b :: rest =>
    let hd := bookingBlock client b
    let tl := bookingsBlocks client rest
    (hd.1 :: tl.1, hd.2 ++ tl.2)

/-- Event loop of postEvents over one location (0-based event index j,
0-based location index i): every event gets its header section — the
"%v truck(s) on ..." line counting its bookings — followed by one
detail section per booking; the trailing divider guard compares the
0-based indices against the lengths and therefore never fires. -/
def eventsBlocks (client : FoodTruckClient) (i lenLocs lenEvents : Nat) :
    Nat → List SFT.Event → List Block × List ApiCall
  | _, [] => ([], [])
  | j, e :: rest =>
    let hd := bookingsBlocks client e.bookings
    let tailDiv := if i ≠ lenLocs ∧ j = lenEvents then [Block.divider] else []
    let tl := eventsBlocks client i lenLocs lenEvents (j + 1) rest
    (Block.eventHeader e.bookings.length e :: (hd.1 ++ tailDiv ++ tl.1),
     hd.2 ++ tl.2)

/-- Location loop of postEvents: a failed GetLocation or GetEvents
posts one text message and returns from the whole function; a location
whose event list is empty is skipped; otherwise one block message is
posted, opened by the location header and a divider. -/
def locationsLoop (client : FoodTruckClient) (day : String) (lenLocs : Nat) :
    Nat → List String → List Post × List ApiCall
  | _, [] => ([], [])
  | i, id :: rest =>
    match client.GetLocation id with
    | .error _ =>
      ([.textMsg ("Sorry I\x27m having trouble getting location details")],
       [.getLocation id])
    | .ok loc =>
      match client.GetEvents id day with
      | .error _ =>
        ([.textMsg ("Sorry I\x27m having trouble getting events")],
         [.getLocation id, .getEvents id day])
      | .ok events =>
        if events.length = 0 then
          let tl := locationsLoop client day lenLocs (i + 1) rest
          (tl.1, [ApiCall.getLocation id, ApiCall.getEvents id day] ++ tl.2)
        else
          let ev := eventsBlocks client i lenLocs events.length 0 events
          let tl := locationsLoop client day lenLocs (i + 1) rest
          (Post.blockMsg (Block.locationHeader loc.id loc.name ::
              Block.divider :: ev.1) :: tl.1,
           ([ApiCall.getLocation id, ApiCall.getEvents id day] ++ ev.2) ++ tl.2)

/-- postEvents of src/unnamed/part_002: splits the configured
LOCATION_IDS string on commas — an empty configuration still yields
the single id "", so the else branch posting "locations not set" is
unreachable — and walks the resulting ids. -/
def postEvents (client : FoodTruckClient) (locations day : String) :
    List Post × List ApiCall :=
  let forLocations := goSplit locations ','
  if forLocations.length > 0 then
    locationsLoop client day forLocations.length 0 forLocations
  else
    ([.textMsg ("locations not set")], [])

/-- The switch at the end of respond (src/unnamed/part_002), after the
command text has been trimmed: help, find events, or the default
apology. -/
def respondDispatch (client : FoodTruckClient) (locations : String)
    (t d : List Char) : List Post × List ApiCall :=
  let t1 := trimSpace t
  if t1 = "help".toList then ([Post.helpMsg], [])
  else if t1 = "find events".toList then postEvents client locations (String.mk d)
  else
    ([.textMsg ("Sorry I cannot help you with this, please try help to see things you can ask me")], [])

/-- respond of src/unnamed/part_002: strips the mention up to and
including the first ">", parses only when the text contains
"find events" (a parse error leaves command and day as their zero
values, falling through to the default branch), then dispatches on the
trimmed command. -/
def respond (client : FoodTruckClient) (locations : String)
    (text0 : List Char) : GoOutcome (List Post × List ApiCall) :=
  let i := goIndex text0 (">".toList)
  match goSlice text0 (i + 1).toNat text0.length with
  | none => .fault
  | some text1 =>
    let parsed :=
      if goContains text1 ("find events".toList) then parseTokensFromMsgEvents text1
      else .ok (text1, [])
    match parsed with
    | .fault => .fault
    | .goError _ => .ok (respondDispatch client locations [] [])
    | .ok (t, d) => .ok (respondDispatch client locations t d)

namespace TrucksApp

structure PTruck where
  name : String
  id : String
  foodCategories : List String
  featuredPhoto : String
deriving DecidableEq

structure PEvent where
  name : String
  startTime : String
  endTime : String
  id : Int
  eventId : Int
  trucks : List PTruck
deriving DecidableEq

/-- Location of src/pkg/api.go, keeping the fields findTrucks reads:
the display name, the id, the nested neighborhood id and the embedded
events. -/
structure PLocation where
  name : String
  id : String
  neighborhoodId : Int
  events : List PEvent
deriving DecidableEq

structure PNeighborhood where
  name : String
  id : String
  uid : Int
deriving DecidableEq

inductive Call where
  | getLocation (id : String)
  | getNeighborhood (id : Int)
  | findTrucks (hood : String) (locs : List String) (atTok : String)
deriving DecidableEq

inductive Msg where
  | text (s : String)
  | eventPost (locName : String) (e : PEvent)
deriving DecidableEq

/-- The pkg.API interface consumed by the find-trucks revision. -/
structure API where
  GetLocation : String → Except String PLocation
  GetNeighborhood : Int → Except String PNeighborhood
  FindTrucks : String → List String → String → Except String (List PLocation)

/-- The nested render loop of findTrucks: one message per event of each
returned location. -/
def eventMsgs : List PLocation → List Msg
  | [] => []
  | l :: rest => l.events.map (Msg.eventPost l.name) ++ eventMsgs rest

/-- findTrucks of src/app.go: GetLocation and GetNeighborhood failures
each post one apology text and return; the guard on a non-empty
location argument sits after both lookups, so its else branch is
unreachable (GetLocation refuses the empty id first); a FindTrucks
failure is only logged and renders nothing. -/
def findTrucks (api : API) (loc atTok : String) : List Msg × List Call :=
  let locs := [loc]
  match api.GetLocation loc with
  | .error _ =>
    ([Msg.text ("Sorry having issues processing your request. Please try again...")],
     [Call.getLocation loc])
  | .ok l =>
    match api.GetNeighborhood l.neighborhoodId with
    | .error _ =>
      ([Msg.text ("Sorry having issues processing your request, please try again...")],
       [Call.getLocation loc, Call.getNeighborhood l.neighborhoodId])
    | .ok n =>
      if loc.length > 0 then
        match api.FindTrucks n.id locs atTok with
        | .error _ =>
          ([], [Call.getLocation loc, Call.getNeighborhood l.neighborhoodId,
                Call.findTrucks n.id locs atTok])
        | .ok locations =>
          (eventMsgs locations,
           [Call.getLocation loc, Call.getNeighborhood l.neighborhoodId,
            Call.findTrucks n.id locs atTok])
      else
        ([Msg.text ("To find trucks location and neighborhood is required.")],
         [Call.getLocation loc, Call.getNeighborhood l.neighborhoodId])

/-- GetLocation of src/pkg/api.go: this revision propagates every
error (request building, transfer, read, unmarshal) and guards the
empty id before any exchange. -/
def pkgGetLocation (id : String) (wire : WireOutcome PLocation) :
    Except String PLocation :=
  if id.length = 0 then .error ("Location id is required")
  else
    match wire with
    | .httpError e => .error e
    | .decodeError e => .error e
    | .ok v => .ok v

end TrucksApp

/-- Client assembled from the seattlefoodtruck package functions, with
the wire behaviour of each resource left as a parameter. -/
def clientFrom (now : Nat) (wl : String → WireOutcome SFT.Location)
    (we : String → Nat → WireOutcome SFT.EventsResponse)
    (wt : String → WireOutcome SFT.Truck) : FoodTruckClient :=
  { GetLocation := fun id => SFT.GetLocation id (wl id)
    GetEvents := fun id day => SFT.GetEvents id day now (we id)
    GetTruck := fun id => SFT.GetTruck id (wt id) }

/-- Sample booked truck reference. -/
def sampleTruckRef1 : SFT.BookingTruck :=
  { name := "Sample Truck", trailer := false, foodCategories := ["Tacos"],
    id := "t1", uid := 1, featuredPhoto := "p1.jpg" }

/-- Second sample booked truck reference. -/
def sampleTruckRef2 : SFT.BookingTruck :=
  { name := "Second Truck", trailer := false, foodCategories := ["Pizza"],
    id := "t2", uid := 2, featuredPhoto := "p2.jpg" }

def sampleBooking1 : SFT.Booking :=
  { id := 11, status := "approved", paid := true, truck := sampleTruckRef1 }

def sampleBooking2 : SFT.Booking :=
  { id := 12, status := "approved", paid := true, truck := sampleTruckRef2 }

/-- An event whose bookings list is empty. -/
def emptyBookingsEvent : SFT.Event :=
  { id := 100, name := "Morning shift", description := "",
    startTime := "2019-10-07T09:00:00-07:00",
    endTime := "2019-10-07T14:00:00-07:00",
    createdAt := "", updatedAt := "", eventId := 100,
    bookings := [], waitlistEntries := [] }

/-- A sibling event carrying one booking. -/
def bookedEvent : SFT.Event :=
  { id := 101, name := "Lunch shift", description := "",
    startTime := "2019-10-07T11:00:00-07:00",
    endTime := "2019-10-07T15:00:00-07:00",
    createdAt := "", updatedAt := "", eventId := 101,
    bookings := [sampleBooking1], waitlistEntries := [] }

/-- An event carrying two bookings, for the end-to-end scenario. -/
def twoBookingsEvent : SFT.Event :=
  { id := 102, name := "Lunch shift", description := "",
    startTime := "2019-10-08T11:00:00-07:00",
    endTime := "2019-10-08T15:00:00-07:00",
    createdAt := "", updatedAt := "", eventId := 102,
    bookings := [sampleBooking1, sampleBooking2], waitlistEntries := [] }

/-- The location the end-to-end scenario resolves id "123" to. -/
def parkLocation : SFT.Location :=
  { name := "Occidental Park", longitude := 0, latitude := 0, address := "",
    slug := "occidental-park", id := "123", uid := 36,
    neighborhood := ⟨"Pioneer Square", 9⟩ }

/-- Client for the empty-bookings scenario: location resolves, the
event list holds one booking-less event followed by one booked
sibling, truck lookups fail (the detail section is emitted anyway). -/
def c1client : FoodTruckClient :=
  { GetLocation := fun _ => .ok parkLocation
    GetEvents := fun _ _ => .ok [emptyBookingsEvent, bookedEvent]
    GetTruck := fun _ => .error ("unavailable") }

/-- Client for the end-to-end scenario of the spec: GetLocation("123")
returns a location and GetEvents("123","tomorrow") one event with two
bookings. -/
def c7client : FoodTruckClient :=
  { GetLocation := fun _ => .ok parkLocation
    GetEvents := fun _ _ => .ok [twoBookingsEvent]
    GetTruck := fun _ => .error ("unavailable") }

/-- A client whose every lookup fails. -/
def failClient : FoodTruckClient :=
  { GetLocation := fun _ => .error ("service down")
    GetEvents := fun _ _ => .error ("service down")
    GetTruck := fun _ => .error ("service down") }

/-- A pkg.API whose location lookup fails on the wire. -/
def failAPI : TrucksApp.API :=
  { GetLocation := fun id => TrucksApp.pkgGetLocation id (.httpError ("service down"))
    GetNeighborhood := fun _ => .error ("service down")
    FindTrucks := fun _ _ _ => .error ("service down") }

/-- Sample pkg.Location for the find-trucks revision. -/
def samplePLocation : TrucksApp.PLocation :=
  { name := "Occidental Park", id := "36", neighborhoodId := 9, events := [] }

/-- Client over a perfectly healthy wire, built from the
seattlefoodtruck package functions. -/
def healthyClient : FoodTruckClient :=
  clientFrom 0 (fun _ => .ok parkLocation)
    (fun _ _ => .ok { pagination := ⟨1, 1, 0⟩, events := [] })
    (fun _ => .ok { name := "T", rating := 4, ratingCount := 10, id := "t1",
                    featuredPhoto := "" })

/-- pkg.API over a perfectly healthy wire. -/
def healthyAPI : TrucksApp.API :=
  { GetLocation := fun id => TrucksApp.pkgGetLocation id (.ok samplePLocation)
    GetNeighborhood := fun _ => .ok { name := "Pioneer Square", id := "pioneer-square", uid := 9 }
    FindTrucks := fun _ _ _ => .ok [] }

lemma glyphsOf_expand (r : Int) :
    glyphsOf r = [if 1 ≤ r then blackStar else whiteStar,
      if 2 ≤ r then blackStar else whiteStar,
      if 3 ≤ r then blackStar else whiteStar,
      if 4 ≤ r then blackStar else whiteStar,
      if 5 ≤ r then blackStar else whiteStar] := by
  simp only [glyphsOf, List.range_succ, List.range_zero, List.map_append,
    List.map_cons, List.map_nil, List.nil_append, List.cons_append]
  norm_num

lemma glyphsOf_eq (r : Int) :
    glyphsOf r = List.replicate (min r.toNat 5) blackStar ++
      List.replicate (5 - min r.toNat 5) whiteStar := by
  rcases le_or_lt r 0 with h | h
  · have h0 : min r.toNat 5 = 0 := by omega
    rw [glyphsOf_expand, h0, if_neg (by omega : ¬ (1 : Int) ≤ r),
      if_neg (by omega : ¬ (2 : Int) ≤ r), if_neg (by omega : ¬ (3 : Int) ≤ r),
      if_neg (by omega : ¬ (4 : Int) ≤ r), if_neg (by omega : ¬ (5 : Int) ≤ r)]
    rfl
  · rcases le_or_lt 5 r with h5 | h5
    · have h0 : min r.toNat 5 = 5 := by omega
      rw [glyphsOf_expand, h0, if_pos (by omega : (1 : Int) ≤ r),
        if_pos (by omega : (2 : Int) ≤ r), if_pos (by omega : (3 : Int) ≤ r),
        if_pos (by omega : (4 : Int) ≤ r), if_pos (by omega : (5 : Int) ≤ r)]
      rfl
    · interval_cases r
      · decide
      · decide
      · decide
      · decide

lemma count_glyphsOf (r : Int) :
    (glyphsOf r).count blackStar = min r.toNat 5 := by
  rw [glyphsOf_eq, List.count_append, List.count_replicate_self,
    List.count_replicate]
  norm_num
  exact fun h => absurd h (by decide)

lemma round_eq_halfAway (q : ℚ) : round q = halfAwayFromZero q := by
  unfold round goTrunc halfAwayFromZero
  by_cases h : q < 0
  · have h1 : copysignHalf q = -(1/2 : ℚ) := by rw [copysignHalf, if_pos h]
    have h2 : q + copysignHalf q < 0 := by rw [h1]; linarith
    rw [if_pos h2, if_pos h, h1]
    congr 1
    ring
  · have h1 : copysignHalf q = (1/2 : ℚ) := by rw [copysignHalf, if_neg h]
    have h2 : ¬ q + copysignHalf q < 0 := by
      rw [h1]
      push_neg at h ⊢
      linarith
    rw [if_neg h2, if_neg h, h1]

/-- Claim C10: for every rating value, including negative values and
values above 5, getRating renders exactly 5 glyphs, each of them the
filled or the empty star, the filled ones forming a contiguous prefix,
whose count never exceeds 5 (and, being a Nat, is never negative). -/
theorem getRating_shape_invariant (q : ℚ) :
    (getRating q).length = 5 ∧
    (∀ c ∈ getRating q, c = blackStar ∨ c = whiteStar) ∧
    (∃ n, n ≤ 5 ∧
      getRating q = List.replicate n blackStar ++
        List.replicate (5 - n) whiteStar) ∧
    (getRating q).count blackStar ≤ 5 := by
  refine ⟨?_, ?_, ⟨min (round q).toNat 5, by omega, ?_⟩, ?_⟩
  · rw [getRating, glyphsOf_eq]
    simp only [List.length_append, List.length_replicate]
    omega
  · intro c hc
    rw [getRating, glyphsOf_eq] at hc
    rcases List.mem_append.mp hc with h | h
    · exact Or.inl (List.eq_of_mem_replicate h)
    · exact Or.inr (List.eq_of_mem_replicate h)
  · rw [getRating]
    exact glyphsOf_eq _
  · rw [getRating, count_glyphsOf]
    omega

/-- Claim C4: over the documented rating range 0.0–5.0, the filled-glyph
count of getRating equals the rating rounded half away from zero, and
the four example ratings of the spec render as stated. -/
theorem getRating_count_matches_halfAway (q : ℚ) (h0 : 0 ≤ q) (h5 : q ≤ 5) :
    ((getRating q).count blackStar : Int) = halfAwayFromZero q ∧
    getRating (23/5 : ℚ) = [blackStar, blackStar, blackStar, blackStar, blackStar] ∧
    getRating (22/5 : ℚ) = [blackStar, blackStar, blackStar, blackStar, whiteStar] ∧
    getRating (0 : ℚ) = [whiteStar, whiteStar, whiteStar, whiteStar, whiteStar] ∧
    getRating (5 : ℚ) = [blackStar, blackStar, blackStar, blackStar, blackStar] := by
  have hval : ∀ x : ℚ, ¬ x < 0 → round x = ⌊x + 1/2⌋ := by
    intro x hx
    rw [round_eq_halfAway, halfAwayFromZero, if_neg hx]
  have h46 : round (23/5 : ℚ) = 5 := by
    rw [hval _ (by norm_num), Int.floor_eq_iff]
    norm_num
  have h44 : round (22/5 : ℚ) = 4 := by
    rw [hval _ (by norm_num), Int.floor_eq_iff]
    norm_num
  have h00 : round (0 : ℚ) = 0 := by
    rw [hval _ (by norm_num), Int.floor_eq_iff]
    norm_num
  have h50 : round (5 : ℚ) = 5 := by
    rw [hval _ (by norm_num), Int.floor_eq_iff]
    norm_num
  refine ⟨?_, by rw [getRating, h46]; decide, by rw [getRating, h44]; decide,
    by rw [getRating, h00]; decide, by rw [getRating, h50]; decide⟩
  have hr : round q = halfAwayFromZero q := round_eq_halfAway q
  have hlo : 0 ≤ halfAwayFromZero q := by
    rw [halfAwayFromZero, if_neg (not_lt.mpr h0)]
    exact Int.floor_nonneg.mpr (by linarith)
  have hhi : halfAwayFromZero q ≤ 5 := by
    rw [halfAwayFromZero, if_neg (not_lt.mpr h0)]
    have hm : ⌊q + 1/2⌋ ≤ ⌊(11/2 : ℚ)⌋ := Int.floor_le_floor (by linarith)
    have h11 : ⌊(11/2 : ℚ)⌋ = 5 := by
      rw [Int.floor_eq_iff]
      norm_num
    omega
  rw [getRating, count_glyphsOf, hr]
  omega

/-- Witness for C4 at the concrete rating 4.6. -/
theorem getRating_count_matches_halfAway_witness :
    ((getRating (23/5 : ℚ)).count blackStar : Int) = halfAwayFromZero (23/5 : ℚ) :=
  (getRating_count_matches_halfAway (23/5 : ℚ) (by norm_num) (by norm_num)).1

/-- Claim C5: the day-token switch sends the exact literal "tomorrow"
to the next day and every other token — "today", case variants such as
"Tomorrow", and arbitrary strings — to the current day, so every token
outside the two literals resolves like "today". -/
theorem resolveOnDay_spec (now : Nat) (tok : String) :
    resolveOnDay now "tomorrow" = now + 1 ∧
    resolveOnDay now "today" = now ∧
    resolveOnDay now "Tomorrow" = now ∧
    (tok ≠ "tomorrow" → resolveOnDay now tok = now) ∧
    (tok ∉ (["today", "tomorrow"] : List String) →
      resolveOnDay now tok = resolveOnDay now "today") := by
  refine ⟨?_, ?_, ?_, ?_, ?_⟩
  · rw [resolveOnDay, if_pos rfl]
  · rw [resolveOnDay, if_neg (by decide)]
  · rw [resolveOnDay, if_neg (by decide)]
  · intro h
    rw [resolveOnDay, if_neg h]
  · intro h
    have ht : tok ≠ "tomorrow" := by
      intro e
      exact h (by rw [e]; simp)
    rw [resolveOnDay, if_neg ht, resolveOnDay, if_neg (by decide)]

/-- Witness for C5 at a concrete unrecognized token. -/
theorem resolveOnDay_spec_witness :
    resolveOnDay 737700 "yesterday" = resolveOnDay 737700 "today" :=
  (resolveOnDay_spec 737700 "yesterday").2.2.2.2 (by decide)

/-- Claim C8 (code bug): in src/pkg/seattlefoodtruck/api.go the error
callAPI returns is discarded, so GetEvents and GetLocation answer a
failed HTTP exchange — and a failed decode — with a nil error and the
zero value, where the spec requires a TransportError; the
src/unnamed/part_003 revision propagates the HTTP error (though it too
swallows decode failures). -/
theorem getEvents_swallows_transport_error :
    SFT.GetEvents "123" "today" 0 (fun _ => .httpError ("connection refused")) =
      Except.ok [] ∧
    SFT.GetLocation "123" (.httpError ("connection refused")) =
      Except.ok SFT.zeroLocation ∧
    SFT.GetEvents "123" "today" 0 (fun _ => .decodeError ("invalid json")) =
      Except.ok [] ∧
    SFTv1.GetEvents "123" "today" 0 (fun _ => .httpError ("connection refused")) =
      Except.error ("connection refused") ∧
    SFTv1.GetEvents "123" "today" 0 (fun _ => .decodeError ("invalid json")) =
      Except.ok [] :=
  ⟨rfl, rfl, rfl, rfl, rfl⟩

/-- Counterexample to claim C2: the input "help" is non-empty and
contains none of the connectives " at", " in", " for", yet the parser
returns an empty command — not the whole trimmed input — and a
non-empty location argument carved out of msg[2:]. -/
theorem parse_no_connective_not_whole_command :
    parseTokensFromMsg ("help".toList) = .ok ([], "lp".toList, []) ∧
    parseTokensFromMsgEvents ("help".toList) = .ok ([], "p".toList) ∧
    goIndex ("help".toList) (" at".toList) = -1 ∧
    goIndex ("help".toList) (" in".toList) = -1 ∧
    goIndex ("help".toList) (" for".toList) = -1 ∧
    "help".toList ≠ ([] : List Char) ∧
    trimSpace ("help".toList) = "help".toList ∧
    ([] : List Char) ≠ "help".toList ∧
    "lp".toList ≠ ([] : List Char) := by
  decide

/-- Counterexample to claim C9: the parser is not total on non-empty
inputs — a one-byte input (two bytes for the events revision) cannot
contain the connective, the index is -1, and the slice msg[2:1]
(msg[3:2]) is out of range. -/
theorem parse_faults_on_short_input :
    parseTokensFromMsg ("x".toList) = GoOutcome.fault ∧
    "x".toList ≠ ([] : List Char) ∧
    parseTokensFromMsgEvents ("hi".toList) = GoOutcome.fault ∧
    "hi".toList ≠ ([] : List Char) := by
  decide

lemma hasPrefixL_length : ∀ p s : List Char, hasPrefixL p s = true →
    p.length ≤ s.length
  | [], _, _ => by simp
  | _ :: _, [], h => by simp [hasPrefixL] at h
  | a :: ps, c :: cs, h => by
    simp only [hasPrefixL, Bool.and_eq_true] at h
    have := hasPrefixL_length ps cs h.2
    simp only [List.length_cons]
    omega

lemma indexAux_bound : ∀ (s sub : List Char) (n : Nat),
    indexAux sub s = some n → n + sub.length ≤ s.length
  | [], sub, n, h => by
    simp only [indexAux] at h
    split_ifs at h with hp
    · have := hasPrefixL_length sub [] hp
      simp only [Option.some.injEq] at h
      omega
  | c :: rest, sub, n, h => by
    simp only [indexAux] at h
    split_ifs at h with hp
    · have := hasPrefixL_length sub (c :: rest) hp
      simp only [Option.some.injEq] at h
      omega
    · rcases Option.map_eq_some'.mp h with ⟨m, hm, hn⟩
      have := indexAux_bound rest sub m hm
      simp only [List.length_cons]
      omega

/-- strings.Index either misses (-1) or returns an index at which the
whole pattern still fits inside the string. -/
lemma goIndex_neg_or_bound (s sub : List Char) :
    goIndex s sub = -1 ∨
      (0 ≤ goIndex s sub ∧ (goIndex s sub).toNat + sub.length ≤ s.length) := by
  unfold goIndex
  rcases h : indexAux sub s with _ | n
  · exact Or.inl rfl
  · refine Or.inr ⟨Int.natCast_nonneg n, ?_⟩
    rw [Int.toNat_natCast]
    exact indexAux_bound s sub n h

/-- Amended claim C2: when a non-empty input of length at least 2
contains no " at" connective, the parser returns with a nil error, but
the command comes back empty (not as the whole trimmed input) and the
argument slots are filled from the trimmed suffix msg[2:], split into
location and day when that suffix holds exactly two space-separated
tokens. -/
theorem parse_no_connective_empty_command (msg : List Char)
    (h0 : msg ≠ []) (h1 : goIndex msg (" at".toList) = -1)
    (h2 : 2 ≤ msg.length) :
    ∃ locArg dayArg, parseTokensFromMsg msg = .ok ([], locArg, dayArg) ∧
      (splitChar ' ' (trimSpace (msg.drop 2)) = [locArg, dayArg] ∨
        (locArg = trimSpace (msg.drop 2) ∧ dayArg = [])) := by
  have hlen : ¬ msg.length = 0 := fun h => h0 (List.length_eq_zero.mp h)
  have hslice : goSlice msg ((goIndex msg (" at".toList)) + 3).toNat msg.length
      = some (msg.drop 2) := by
    rw [h1]
    have h23 : ((-1 : Int) + 3).toNat = 2 := by decide
    rw [h23, goSlice, if_pos ⟨h2, le_refl _⟩]
    congr 1
    have hd : (msg.drop 2).length = msg.length - 2 := List.length_drop 2 msg
    rw [← hd, List.take_length]
  have hcmd : ¬ (0 < goIndex msg (" at".toList)) := by
    rw [h1]
    decide
  unfold parseTokensFromMsg
  rw [if_neg hlen]
  simp only [hslice, if_neg hcmd]
  rcases hs : splitChar ' ' (trimSpace (msg.drop 2)) with _ | ⟨a, _ | ⟨b, _ | ⟨c, t⟩⟩⟩
  · exact ⟨trimSpace (msg.drop 2), [], rfl, Or.inr ⟨rfl, rfl⟩⟩
  · exact ⟨trimSpace (msg.drop 2), [], rfl, Or.inr ⟨rfl, rfl⟩⟩
  · exact ⟨a, b, rfl, Or.inl rfl⟩
  · exact ⟨trimSpace (msg.drop 2), [], rfl, Or.inr ⟨rfl, rfl⟩⟩

/-- Witness for the amended C2 at the concrete input "help". -/
theorem parse_no_connective_empty_command_witness :
    ∃ locArg dayArg,
      parseTokensFromMsg ("help".toList) = .ok ([], locArg, dayArg) ∧
      (splitChar ' ' (trimSpace (("help".toList).drop 2)) = [locArg, dayArg] ∨
        (locArg = trimSpace (("help".toList).drop 2) ∧ dayArg = [])) :=
  parse_no_connective_empty_command ("help".toList) (by decide) (by decide)
    (by decide)

lemma parse_ok_of_two_le (msg : List Char) (h2 : 2 ≤ msg.length) :
    ∃ r, parseTokensFromMsg msg = .ok r := by
  have hsub3 : (" at".toList).length = 3 := by decide
  have hlen : ¬ msg.length = 0 := by omega
  obtain ⟨v, hv⟩ : ∃ v,
      goSlice msg ((goIndex msg (" at".toList)) + 3).toNat msg.length = some v := by
    rcases goIndex_neg_or_bound msg (" at".toList) with h | ⟨hp, hb⟩
    · rw [h]
      have h23 : ((-1 : Int) + 3).toNat = 2 := by decide
      rw [h23, goSlice, if_pos ⟨h2, le_refl _⟩]
      exact ⟨_, rfl⟩
    · rw [hsub3] at hb
      rw [goSlice, if_pos ⟨by omega, le_refl _⟩]
      exact ⟨_, rfl⟩
  unfold parseTokensFromMsg
  rw [if_neg hlen]
  simp only [hv]
  rcases splitChar ' ' (trimSpace v) with _ | ⟨a, _ | ⟨b, _ | _⟩⟩ <;>
    exact ⟨_, rfl⟩

lemma parse_fault_of_one (msg : List Char) (hone : msg.length = 1) :
    parseTokensFromMsg msg = .fault := by
  have hsub3 : (" at".toList).length = 3 := by decide
  have hlen : ¬ msg.length = 0 := by omega
  have hmiss : goIndex msg (" at".toList) = -1 := by
    rcases goIndex_neg_or_bound msg (" at".toList) with h | ⟨hp, hb⟩
    · exact h
    · rw [hsub3] at hb
      omega
  have hnone : goSlice msg ((goIndex msg (" at".toList)) + 3).toNat msg.length
      = none := by
    rw [hmiss]
    have h23 : ((-1 : Int) + 3).toNat = 2 := by decide
    rw [h23, goSlice, if_neg (by omega)]
  unfold parseTokensFromMsg
  rw [if_neg hlen]
  simp only [hnone]

lemma parseEvents_ok_of_three_le (msg : List Char) (h3 : 3 ≤ msg.length) :
    ∃ r, parseTokensFromMsgEvents msg = .ok r := by
  have hsub4 : (" for".toList).length = 4 := by decide
  have hlen : ¬ msg.length = 0 := by omega
  obtain ⟨v, hv⟩ : ∃ v,
      goSlice msg ((goIndex msg (" for".toList)) + 4).toNat msg.length = some v := by
    rcases goIndex_neg_or_bound msg (" for".toList) with h | ⟨hp, hb⟩
    · rw [h]
      have h34 : ((-1 : Int) + 4).toNat = 3 := by decide
      rw [h34, goSlice, if_pos ⟨h3, le_refl _⟩]
      exact ⟨_, rfl⟩
    · rw [hsub4] at hb
      rw [goSlice, if_pos ⟨by omega, le_refl _⟩]
      exact ⟨_, rfl⟩
  unfold parseTokensFromMsgEvents
  rw [if_neg hlen]
  simp only [hv]
  exact ⟨_, rfl⟩

lemma parseEvents_fault_of_le_two (msg : List Char) (hge : 1 ≤ msg.length)
    (hle : msg.length ≤ 2) : parseTokensFromMsgEvents msg = .fault := by
  have hsub4 : (" for".toList).length = 4 := by decide
  have hlen : ¬ msg.length = 0 := by omega
  have hmiss : goIndex msg (" for".toList) = -1 := by
    rcases goIndex_neg_or_bound msg (" for".toList) with h | ⟨hp, hb⟩
    · exact h
    · rw [hsub4] at hb
      omega
  have hnone : goSlice msg ((goIndex msg (" for".toList)) + 4).toNat msg.length
      = none := by
    rw [hmiss]
    have h34 : ((-1 : Int) + 4).toNat = 3 := by decide
    rw [h34, goSlice, if_neg (by omega)]
  unfold parseTokensFromMsgEvents
  rw [if_neg hlen]
  simp only [hnone]

/-- Amended claim C9: the parser returns its non-nil error exactly on
the empty input, and is fault-free precisely from length 2 on (length
3 for the events revision): a length-1 input faults on the slice
msg[2:1], and lengths 1 and 2 fault on msg[3:l] in the events
revision. -/
theorem parse_total_on_len_ge_two (msg : List Char) :
    (msg = [] →
      parseTokensFromMsg msg = .goError ("Message is empty, nothing to do") ∧
      parseTokensFromMsgEvents msg = .goError ("Message is empty, nothing to do")) ∧
    (msg ≠ [] → ∀ e, parseTokensFromMsg msg ≠ .goError e) ∧
    (msg ≠ [] → ∀ e, parseTokensFromMsgEvents msg ≠ .goError e) ∧
    (2 ≤ msg.length → ∃ r, parseTokensFromMsg msg = .ok r) ∧
    (msg.length = 1 → parseTokensFromMsg msg = .fault) ∧
    (3 ≤ msg.length → ∃ r, parseTokensFromMsgEvents msg = .ok r) ∧
    (1 ≤ msg.length → msg.length ≤ 2 → parseTokensFromMsgEvents msg = .fault) := by
  refine ⟨?_, ?_, ?_, parse_ok_of_two_le msg, parse_fault_of_one msg,
    parseEvents_ok_of_three_le msg, parseEvents_fault_of_le_two msg⟩
  · rintro rfl
    exact ⟨rfl, rfl⟩
  · intro hne e
    have hpos : 0 < msg.length := List.length_pos.mpr hne
    by_cases hc : 2 ≤ msg.length
    · obtain ⟨r, hr⟩ := parse_ok_of_two_le msg hc
      rw [hr]
      simp
    · rw [parse_fault_of_one msg (by omega)]
      simp
  · intro hne e
    have hpos : 0 < msg.length := List.length_pos.mpr hne
    by_cases hc : 3 ≤ msg.length
    · obtain ⟨r, hr⟩ := parseEvents_ok_of_three_le msg hc
      rw [hr]
      simp
    · rw [parseEvents_fault_of_le_two msg (by omega) (by omega)]
      simp

/-- Witness for the amended C9 at the concrete inputs "" / "ab" /
"x". -/
theorem parse_total_on_len_ge_two_witness :
    (∃ r, parseTokensFromMsg ("ab".toList) = .ok r) ∧
    parseTokensFromMsg ([] : List Char) =
      .goError ("Message is empty, nothing to do") := by
  constructor
  · exact (parse_total_on_len_ge_two ("ab".toList)).2.2.2.1 (by decide)
  · exact ((parse_total_on_len_ge_two ([] : List Char)).1 rfl).1

/-- Counterexample to claim C1: with one location whose event list
holds a booking-less event and a booked sibling, the assembler still
emits a header section for the booking-less event (reporting 0
trucks); only its detail sections are absent. -/
theorem emptyBookings_header_emitted :
    (postEvents c1client "1" "today").1 =
      [Post.blockMsg [Block.locationHeader "123" "Occidental Park",
        Block.divider,
        Block.eventHeader 0 emptyBookingsEvent,
        Block.eventHeader 1 bookedEvent,
        Block.bookingDetail sampleBooking1 none]] ∧
    Block.eventHeader 0 emptyBookingsEvent ∈
      [Block.locationHeader "123" "Occidental Park", Block.divider,
        Block.eventHeader 0 emptyBookingsEvent,
        Block.eventHeader 1 bookedEvent,
        Block.bookingDetail sampleBooking1 none] := by
  exact ⟨rfl, by simp⟩

/-- Amended claim C1: an event with an empty bookings list still
receives its header section, counting 0 trucks, and contributes no
detail section; the sibling events that follow are rendered
unchanged. (The only skipping in the source is of a location whose
whole event list is empty.) -/
theorem emptyBookings_header_no_details (client : FoodTruckClient)
    (e : SFT.Event) (rest : List SFT.Event) (i lenLocs lenEvents j : Nat)
    (h : e.bookings = []) :
    (eventsBlocks client i lenLocs lenEvents j (e :: rest)).1 =
      Block.eventHeader 0 e ::
        ((if i ≠ lenLocs ∧ j = lenEvents then [Block.divider] else []) ++
          (eventsBlocks client i lenLocs lenEvents (j + 1) rest).1) := by
  simp only [eventsBlocks, h, bookingsBlocks, List.length_nil, List.nil_append]

/-- Witness for the amended C1 at the concrete booking-less event. -/
theorem emptyBookings_header_no_details_witness :
    (eventsBlocks c1client 0 1 2 0 [emptyBookingsEvent, bookedEvent]).1 =
      Block.eventHeader 0 emptyBookingsEvent ::
        ((if (0 : Nat) ≠ 1 ∧ (0 : Nat) = 2 then [Block.divider] else []) ++
          (eventsBlocks c1client 0 1 2 1 [bookedEvent]).1) :=
  emptyBookings_header_no_details c1client emptyBookingsEvent [bookedEvent]
    0 1 2 0 rfl

/-- Claim C3 (code bug): with an empty configuration the find flow does
not short-circuit into the dedicated missing-input section: splitting
"" on commas yields the one-element list [""], the guard passes,
GetLocation is invoked with the empty id (and fails even on a healthy
wire), and the service-trouble text is posted; the "locations not set"
branch — and likewise the "location and neighborhood is required"
branch of the find-trucks revision, guarded only after both lookups —
is unreachable. -/
theorem missing_locations_branch_unreachable :
    postEvents healthyClient "" "today" =
      ([Post.textMsg ("Sorry I\x27m having trouble getting location details")],
       [ApiCall.getLocation ""]) ∧
    goSplit "" ',' = [""] ∧
    (goSplit "" ',').length = 1 ∧
    TrucksApp.findTrucks healthyAPI "" "today" =
      ([TrucksApp.Msg.text
          ("Sorry having issues processing your request. Please try again...")],
       [TrucksApp.Call.getLocation ""]) :=
  ⟨rfl, rfl, rfl, rfl⟩

/-- Claim C6: when the Location resolution fails, both find flows post
exactly one service-trouble section and record no further Domain
Client call — the trace holds the failing GetLocation alone, so
GetNeighborhood, FindTrucks, GetEvents and GetTruck are never
reached. -/
theorem location_failure_single_section (client : FoodTruckClient)
    (api : TrucksApp.API) (day atTok id loc e1 e2 : String)
    (lenLocs i : Nat) (rest : List String)
    (h1 : client.GetLocation id = .error e1)
    (h2 : api.GetLocation loc = .error e2) :
    locationsLoop client day lenLocs i (id :: rest) =
      ([Post.textMsg ("Sorry I\x27m having trouble getting location details")],
       [ApiCall.getLocation id]) ∧
    TrucksApp.findTrucks api loc atTok =
      ([TrucksApp.Msg.text
          ("Sorry having issues processing your request. Please try again...")],
       [TrucksApp.Call.getLocation loc]) := by
  constructor
  · simp only [locationsLoop, h1]
  · simp only [TrucksApp.findTrucks, h2]

/-- Witness for C6 with a concretely failing client. -/
theorem location_failure_single_section_witness :
    locationsLoop failClient "today" 1 0 ["123"] =
      ([Post.textMsg ("Sorry I\x27m having trouble getting location details")],
       [ApiCall.getLocation "123"]) ∧
    TrucksApp.findTrucks failAPI "123" "today" =
      ([TrucksApp.Msg.text
          ("Sorry having issues processing your request. Please try again...")],
       [TrucksApp.Call.getLocation "123"]) :=
  location_failure_single_section failClient failAPI "today" "today" "123" "123"
    ("service down") ("service down") 1 0 [] rfl rfl

/-- Claim C7: the booking loop preserves the order and count of the
bookings, every event header precedes all detail sections of its
event, and the end-to-end scenario — mention "find events for
tomorrow", configured ids ["123"], one event with two bookings —
renders, for that event, exactly one header followed by the two
details in booking order (after the location header and divider that
open the message). -/
theorem header_before_details_roundTrip (client : FoodTruckClient)
    (bs : List SFT.Booking) (e : SFT.Event) (rest : List SFT.Event)
    (i lenLocs lenEvents j : Nat) :
    (bookingsBlocks client bs).1 = bs.map (fun b => (bookingBlock client b).1) ∧
    (eventsBlocks client i lenLocs lenEvents j (e :: rest)).1 =
      Block.eventHeader e.bookings.length e ::
        ((bookingsBlocks client e.bookings).1 ++
          (if i ≠ lenLocs ∧ j = lenEvents then [Block.divider] else []) ++
          (eventsBlocks client i lenLocs lenEvents (j + 1) rest).1) ∧
    respond c7client "123" ("<@BOT> find events for tomorrow".toList) =
      .ok ([Post.blockMsg [Block.locationHeader "123" "Occidental Park",
          Block.divider, Block.eventHeader 2 twoBookingsEvent,
          Block.bookingDetail sampleBooking1 none,
          Block.bookingDetail sampleBooking2 none]],
        [ApiCall.getLocation "123", ApiCall.getEvents "123" "tomorrow",
         ApiCall.getTruck "t1", ApiCall.getTruck "t2"]) := by
  refine ⟨?_, rfl, rfl⟩
  induction bs with
  | nil => rfl
  | cons b rest2 ih => simp [bookingsBlocks, ih]

end SeafoodTruck
